import Mathlib

/-!
Formal model of the `claude-python-hooks` repository: each hook script reads a
JSON tool event, runs a sequence of rule checks, prints a decision object
(`approve` or `block`, optionally with a reason) and returns an exit code.
The Python regular-expression patterns used by the hooks are embedded as
executable character-list scanners with the same matching semantics (word
boundaries `\b`, whitespace runs `\s+`, greedy character classes, negative
lookahead) restricted to the concrete patterns appearing in the source.
External effects (the `git branch --show-current` subprocess, the filesystem,
`ast.parse`) are passed in as explicit oracle parameters.
-/

set_option maxRecDepth 100000

/-- Python `\s` on the ASCII range: space, tab, newline, carriage return,
vertical tab, form feed. -/
def isPySpace (c : Char) : Bool :=
  c = ' ' || c = '\t' || c = '\n' || c = '\r' || c = '\x0b' || c = '\x0c'

/-- Python `\w` on the ASCII range: letters, digits and underscore. -/
def isWordChar (c : Char) : Bool :=
  c.isAlphanum || c = '_'

/-- ASCII lowering, as `str.lower` acts on the ASCII inputs the hooks see. -/
def lowerChar (c : Char) : Char :=
  if 'A' ≤ c && c ≤ 'Z' then Char.ofNat (c.toNat + 32) else c

/-- The command string lowered character by character (`command.lower()`). -/
def lowerList (s : String) : List Char :=
  s.toList.map lowerChar

/-- Python `str.endswith` for a suffix test on paths. -/
def strEndsWith (s suffix : String) : Bool :=
  suffix.toList.isSuffixOf s.toList

/-- Word boundary `\b` on the left of a match: the previous character (if any)
is not a word character. All matched words start with a word character. -/
def wbBefore : Option Char → Bool
  | none => true
  | some c => !(isWordChar c)

/-- Word boundary `\b` on the right of a match: the next character (if any)
is not a word character. All matched words end with a word character. -/
def wbAfterOK : List Char → Bool
  | [] => true
  | c :: _ => !(isWordChar c)

/-- Match a list of literal words joined by `\s+` at the head of the input,
returning the rest of the input after the match. The whitespace runs are
consumed maximally, which coincides with the backtracking semantics because
every word starts with a non-whitespace character. -/
def matchWordsFrom : List (List Char) → List Char → Option (List Char)
  | [], l => some l
  | [w], l => if w.isPrefixOf l then some (l.drop w.length) else none
  | w :: ws, l =>
    if w.isPrefixOf l then
      let r := l.drop w.length
      let sp := r.takeWhile isPySpace
      if sp.isEmpty then none else matchWordsFrom ws (r.drop sp.length)
    else none

/-- Unanchored search (`re.search`): try the attempt function at every
position of the input, tracking the previous character for `\b`. -/
def reSearch (att : Option Char → List Char → Bool) : Option Char → List Char → Bool
  | p, [] => att p []
  | p, c :: rest => att p (c :: rest) || reSearch att (some c) rest

/-- Search for `\bgit\s+commit\b` (`re.search(r'\bgit\s+commit\b', command)`). -/
def searchGitCommit (l : List Char) : Bool :=
  reSearch
    (fun p s =>
      wbBefore p &&
        (match matchWordsFrom ["git".toList, "commit".toList] s with
         | some r => wbAfterOK r
         | none => false))
    none l

/-- Search for `git\s+push` (`re.search(r'git\s+push', command)`). -/
def searchGitPush (l : List Char) : Bool :=
  reSearch (fun _ s => (matchWordsFrom ["git".toList, "push".toList] s).isSome) none l

/-- Search for `git\s+merge` (`re.search(r'git\s+merge', command)`). -/
def searchGitMerge (l : List Char) : Bool :=
  reSearch (fun _ s => (matchWordsFrom ["git".toList, "merge".toList] s).isSome) none l

/-- Search for a sequence of words joined by `\s+` anywhere in the input. -/
def searchWords (ws : List (List Char)) (l : List Char) : Bool :=
  reSearch (fun _ s => (matchWordsFrom ws s).isSome) none l

/-- The deny list of `git_commit_standards_hook.py`, one entry per pattern in
`prohibited_phrases`: `claude\s+code`, `written\s+by\s+claude`,
`generated\s+by\s+claude`, `claude\s+ai`, `anthropic`, `🤖`. -/
def prohibitedPhrases : List (List (List Char)) :=
  [ ["claude".toList, "code".toList],
    ["written".toList, "by".toList, "claude".toList],
    ["generated".toList, "by".toList, "claude".toList],
    ["claude".toList, "ai".toList],
    ["anthropic".toList],
    ["🤖".toList] ]

/-- Whether some prohibited phrase matches the (lowercased) command
(the `for phrase in prohibited_phrases: if re.search(phrase, command_lower)`
loop). -/
def prohibitedHit (l : List Char) : Bool :=
  prohibitedPhrases.any (fun ph => searchWords ph l)

/-- Substring test, Python `pat in s`. -/
def containsSub (pat l : List Char) : Bool :=
  reSearch (fun _ s => pat.isPrefixOf s) none l

/-- Python `'-m' in command`. -/
def containsM (cmd : String) : Bool :=
  containsSub "-m".toList cmd.toList

/-- One of the two quote characters of the class `["\']`. -/
def isQuote (c : Char) : Bool :=
  c = '"' || c = '\''

/-- Attempt `-m\s+["\']([^"\']+)["\']` at the head of the input; on success
return the captured group. The whitespace run and the quoted group are
consumed maximally, which is forced: the character right after each run
cannot extend it. -/
def extractAt (l : List Char) : Option (List Char) :=
  if "-m".toList.isPrefixOf l then
    let r := l.drop 2
    let sp := r.takeWhile isPySpace
    if sp.isEmpty then none
    else
      match r.drop sp.length with
      | q1 :: r2 =>
        if isQuote q1 then
          let grp := r2.takeWhile (fun c => !(isQuote c))
          if grp.isEmpty then none
          else
            match r2.drop grp.length with
            | q2 :: _ => if isQuote q2 then some grp else none
            | [] => none
        else none
      | [] => none
  else none

/-- Leftmost search for the `-m` message pattern
(`re.search(r'-m\s+["\']([^"\']+)["\']', command)`), returning group 1. -/
def extractMsgAux : List Char → Option (List Char)
  | [] => none
  | c :: rest =>
    match extractAt (c :: rest) with
    | some g => some g
    | none => extractMsgAux rest

/-- The extracted commit message of a command, when the `-m` pattern matches. -/
def extractMsg (cmd : String) : Option (List Char) :=
  extractMsgAux cmd.toList

/-- The conventional-commit type tags, in the order of the source pattern. -/
def commitTypes : List (List Char) :=
  ["feat".toList, "fix".toList, "docs".toList, "style".toList,
   "refactor".toList, "test".toList, "chore".toList]

/-- After the whitespace run that follows the colon, `.+` needs one more
character that is not a newline; scanning may extend the whitespace run only
across newline characters (every other character either satisfies `.` or
stops the run). -/
def dotAfterWs : List Char → Bool
  | [] => false
  | c :: rest => if c = '\n' then dotAfterWs rest else true

/-- Match `\s+.+` at the head of the input (the tail of the format pattern
after the colon). -/
def colonTailOK : List Char → Bool
  | [] => false
  | c :: rest => isPySpace c && dotAfterWs rest

/-- Match `:\s+.+` at the head of the input. -/
def afterColonOK : List Char → Bool
  | ':' :: rest => colonTailOK rest
  | _ => false

/-- Match `(\([^)]+\)):\s+.+` at the head of the input: a parenthesised
non-empty scope, then the colon tail. -/
def scopeThenColon : List Char → Bool
  | '(' :: r2 =>
    let inner := r2.takeWhile (fun c => c ≠ ')')
    !inner.isEmpty &&
      (match r2.drop inner.length with
       | ')' :: r3 => afterColonOK r3
       | _ => false)
  | _ => false

/-- The conventional-commit format test
(`re.match(r'^(feat|fix|docs|style|refactor|test|chore)(\([^)]+\))?:\s+.+', message)`):
anchored at the start, a type tag, an optional scope, a colon, whitespace and
at least one further character. `re.match` does not require the pattern to
cover the whole message. -/
def validFormat (m : List Char) : Bool :=
  commitTypes.any (fun t =>
    t.isPrefixOf m &&
      (afterColonOK (m.drop t.length) || scopeThenColon (m.drop t.length)))

/-- The body of the format check of `git_commit_standards_hook.py`: the
extracted message violates the convention and is shorter than 10 characters
(`if not valid_format: if len(message) < 10: block`); nothing fires when the
`-m` pattern did not match (`if msg_match:`). -/
def msgFormatViolation : Option (List Char) → Bool
  | some m => !(validFormat m) && m.length < 10
  | none => false

/-- The protected branch names of the hook, as character lists. -/
def protectedBranchNames : List (List Char) :=
  ["main".toList, "master".toList, "production".toList]

/-- Search for `origin\s+(main|master|production)\b`. -/
def originProtectedHit (l : List Char) : Bool :=
  reSearch
    (fun _ s =>
      protectedBranchNames.any (fun b =>
        match matchWordsFrom ["origin".toList, b] s with
        | some r => wbAfterOK r
        | none => false))
    none l

/-- Search for `(main|master|production):(main|master|production)`. -/
def colonProtectedHit (l : List Char) : Bool :=
  reSearch
    (fun _ s =>
      protectedBranchNames.any (fun b1 =>
        protectedBranchNames.any (fun b2 => (b1 ++ ':' :: b2).isPrefixOf s)))
    none l

/-- The literal `--force` at the head of the input, with the negative
lookahead `(?!-with-lease)`. -/
def forceLookaheadAt (l : List Char) : Bool :=
  "--force".toList.isPrefixOf l && !("-with-lease".toList.isPrefixOf (l.drop 7))

/-- Scan for `--force(?!-with-lease)` across the `\s+.*` region after `push`:
the flag records whether every character consumed so far was whitespace, and
a newline may only be consumed while that flag still holds (`.` does not
match a newline, `\s` does). -/
def forceScan : List Char → Bool → Bool
  | [], _ => false
  | c :: rest, inWs =>
    forceLookaheadAt (c :: rest) ||
      (if c = '\n' then inWs && forceScan rest true
       else forceScan rest (inWs && isPySpace c))

/-- Match `\s+.*--force(?!-with-lease)` at the head of the input (the tail of
the force-push pattern after `git\s+push`). -/
def forceTailHit : List Char → Bool
  | [] => false
  | c :: rest => isPySpace c && forceScan rest true

/-- Search for `git\s+push\s+.*--force(?!-with-lease)`. -/
def forcePushHit (l : List Char) : Bool :=
  reSearch
    (fun _ s =>
      match matchWordsFrom ["git".toList, "push".toList] s with
      | some r => forceTailHit r
      | none => false)
    none l

/-- The branch test `current_branch in ["main", "master", "production"]`,
over the probe result: `none` models the `except:` path (the subprocess
failed or timed out), where the hook falls through without blocking. -/
def branchGuard : Option String → Bool
  | some b => ["main", "master", "production"].contains b
  | none => false

/-- A decision object as the hooks print it, with the process exit code. -/
structure HookOutput where
  decision : String
  reason : Option String
  exitCode : Nat
deriving DecidableEq, Repr

/-- The bare approval `{"decision": "approve"}` with exit code 0. -/
def approveOut : HookOutput :=
  ⟨"approve", none, 0⟩

/-- A blocking decision with its reason and exit code 1. -/
def blockOut (reason : String) : HookOutput :=
  ⟨"block", some reason, 1⟩

/-- An approval that carries an advisory reason, exit code 0. -/
def approveWith (reason : String) : HookOutput :=
  ⟨"approve", some reason, 0⟩

/-- Reason for approving unparsable input; the source appends the decode
error text to this prefix. -/
def parseFailReason : String :=
  "Failed to parse input"

/-- Reason printed when committing on a protected branch. -/
def branchBlockReason : String :=
  "❌ NEVER commit directly to main/master! Per CLAUDE.md GitHub Flow:\n\n1. Create feature branch:\n   git checkout -b feature/your-feature\n\n2. Make changes and commit to feature branch\n\n3. Push feature branch:\n   git push origin feature/your-feature\n\n4. Create Pull Request for review\n\nThis ensures code review and prevents breaking production."

/-- Reason printed when a prohibited phrase is found in the command. -/
def aiRefBlockReason : String :=
  "Never include 'Claude Code' or AI references in commit messages! Per CLAUDE.md: Write professional commit messages without mentioning AI assistance.\n\nFormat: <type>(<scope>): <subject>\nTypes: feat, fix, docs, style, refactor, test, chore"

/-- Reason printed when the commit message fails the format check. -/
def formatBlockReason : String :=
  "Commit message too short or incorrect format! Per CLAUDE.md:\nFormat: <type>(<scope>): <subject>\n\nExamples:\n  feat(auth): add two-factor authentication\n  fix(api): resolve timeout issue in payment endpoint\n  docs: update API documentation\n  refactor(database): optimize query performance"

/-- Reason printed when pushing to a protected branch. -/
def pushBlockReason : String :=
  "❌ Don't push directly to protected branches! Per CLAUDE.md GitHub Flow:\n\n1. Create feature branch:\n   git checkout -b feature/name\n\n2. Push feature branch:\n   git push origin feature/name\n\n3. Create Pull Request\n\n4. Review and merge via PR\n\nProtected branches: main, master, production"

/-- Reason printed when merging while on a protected branch. -/
def mergeBlockReason : String :=
  "❌ Don't merge directly into protected branches!\n\nUse Pull Requests for merging into main/master.\nThis ensures code review and CI/CD checks."

/-- Reason printed for a plain force push. -/
def forceBlockReason : String :=
  "Never use 'git push --force'!\nUse 'git push --force-with-lease' instead for safety.\nThis prevents overwriting others' work."

/-- The body of `main` of `git_commit_standards_hook.py` on a Bash command:
the checks run in source order and the first that fires prints its block
decision and returns 1; otherwise the hook approves with exit code 0. The
`probe` parameter is the result of the `git branch --show-current`
subprocess, read at both the commit guard and the merge guard. -/
def gitMain (cmd : String) (probe : Option String) : HookOutput :=
  let l := cmd.toList
  if searchGitCommit l && branchGuard probe then blockOut branchBlockReason
  else if searchGitCommit l && prohibitedHit (lowerList cmd) then blockOut aiRefBlockReason
  else if searchGitCommit l && containsM cmd && msgFormatViolation (extractMsg cmd) then
    blockOut formatBlockReason
  else if searchGitPush l && (originProtectedHit l || colonProtectedHit l) then
    blockOut pushBlockReason
  else if searchGitMerge l && branchGuard probe then blockOut mergeBlockReason
  else if forcePushHit l then blockOut forceBlockReason
  else approveOut

/-- The tool-name gate of `git_commit_standards_hook.py`: a non-Bash event is
approved before any command check. -/
def gitHookTyped (toolName cmd : String) (probe : Option String) : HookOutput :=
  if toolName = "Bash" then gitMain cmd probe else approveOut

/-- Reason printed by the search hook for a bare `grep` command. -/
def grepBlockReason : String :=
  "Use 'rg' (ripgrep) instead of 'grep'! Per CLAUDE.md:\n  - Search pattern: rg 'pattern'\n  - Search in files: rg 'pattern' *.py\n  - Case insensitive: rg -i 'pattern'\n  - Show context: rg -C 3 'pattern'\nripgrep is faster and has better features."

/-- Reason printed by the search hook for `find ... -name`. -/
def findBlockReason : String :=
  "Use 'rg' instead of 'find -name'! Per CLAUDE.md:\n  - Find Python files: rg --files -g '*.py'\n  - Find all files: rg --files\n  - Filter by pattern: rg --files | rg 'pattern'\nripgrep is much faster for file searches."

/-- Reason printed by the search hook for `ack` or `ag`. -/
def ackAgBlockReason : String :=
  "Use 'rg' (ripgrep) for searching! Per CLAUDE.md:\nripgrep is the standard search tool for this project.\nIt's faster and more feature-rich than ack or ag."

/-- Reason printed by the search hook for `locate`. -/
def locateBlockReason : String :=
  "Use 'rg --files' instead of 'locate'!\nlocate uses a database that may be outdated.\nrg --files gives real-time results."

/-- The check `re.match(r'^grep\b(?!.*\|)', command)`: the command starts
with `grep` at a word boundary and no pipe character is reachable before a
newline. -/
def grepCheck (l : List Char) : Bool :=
  "grep".toList.isPrefixOf l &&
    (let r := l.drop 4
     wbAfterOK r && !((r.takeWhile (fun c => c ≠ '\n')).contains '|'))

/-- The check `re.search(r'^find\s+\S+\s+-name\b', command)`; with the `^`
anchor and no multiline flag this only matches at the start. -/
def findNameCheck (l : List Char) : Bool :=
  if "find".toList.isPrefixOf l then
    let r := l.drop 4
    let sp := r.takeWhile isPySpace
    if sp.isEmpty then false
    else
      let r2 := r.drop sp.length
      let tok := r2.takeWhile (fun c => !(isPySpace c))
      if tok.isEmpty then false
      else
        let r3 := r2.drop tok.length
        let sp2 := r3.takeWhile isPySpace
        if sp2.isEmpty then false
        else
          let r4 := r3.drop sp2.length
          "-name".toList.isPrefixOf r4 && wbAfterOK (r4.drop 5)
  else false

/-- The check `re.match(r'^(ack|ag)\b', command)`. -/
def ackAgCheck (l : List Char) : Bool :=
  ("ack".toList.isPrefixOf l && wbAfterOK (l.drop 3)) ||
  ("ag".toList.isPrefixOf l && wbAfterOK (l.drop 2))

/-- The check `re.match(r'^locate\b', command)`. -/
def locateCheck (l : List Char) : Bool :=
  "locate".toList.isPrefixOf l && wbAfterOK (l.drop 6)

/-- The body of `main` of `search_commands_hook.py` on a Bash command: the
four checks run in source order; the first that fires blocks with exit code
1, otherwise the hook approves with exit code 0. -/
def searchMain (cmd : String) : HookOutput :=
  let l := cmd.toList
  if grepCheck l then blockOut grepBlockReason
  else if findNameCheck l then blockOut findBlockReason
  else if ackAgCheck l then blockOut ackAgBlockReason
  else if locateCheck l then blockOut locateBlockReason
  else approveOut

/-- The tool-name gate of `search_commands_hook.py`. -/
def searchHookTyped (toolName cmd : String) : HookOutput :=
  if toolName = "Bash" then searchMain cmd else approveOut

/-- Some rule of the search hook fires on the command. -/
def searchAnyCheckHit (l : List Char) : Bool :=
  grepCheck l || findNameCheck l || ackAgCheck l || locateCheck l

/-- Some rule of the git hook fires on the command, given the branch probe. -/
def gitAnyCheckHit (cmd : String) (probe : Option String) : Bool :=
  let l := cmd.toList
  (searchGitCommit l && branchGuard probe) ||
  (searchGitCommit l && prohibitedHit (lowerList cmd)) ||
  (searchGitCommit l && containsM cmd && msgFormatViolation (extractMsg cmd)) ||
  (searchGitPush l && (originProtectedHit l || colonProtectedHit l)) ||
  (searchGitMerge l && branchGuard probe) ||
  forcePushHit l

/-- A JSON value as `json.load` produces it (numbers restricted to the
integers the hooks could see; no hook arithmetic depends on floats). -/
inductive JValue where
  | null
  | bool (b : Bool)
  | num (n : Int)
  | str (s : String)
  | arr (elems : List JValue)
  | obj (fields : List (String × JValue))

/-- The Python runtime errors the hooks can raise past the JSON parse. -/
inductive PyErr where
  | attributeError
  | typeError
deriving DecidableEq, Repr

/-- Python `value.get(key, default)`: only a dict has `get`; on any other
JSON value the attribute lookup raises `AttributeError`. -/
def pyGet (v : JValue) (key : String) (dflt : JValue) : Except PyErr JValue :=
  match v with
  | .obj fields => .ok ((fields.lookup key).getD dflt)
  | _ => .error .attributeError

/-- Python `v == s` for a string literal `s`: values of other types compare
unequal without raising. -/
def isStrEq (v : JValue) (s : String) : Bool :=
  match v with
  | .str t => t = s
  | _ => false

/-- The whole of `main` of `git_commit_standards_hook.py` from the input
stage: `none` models stdin that fails to parse as JSON (the only caught
exception, answered with an approve decision); any other runtime error
escapes `main`, which has no surrounding handler. A non-string `command`
reaches `re.search` and raises `TypeError`. -/
def gitHookRun (inp : Option JValue) (probe : Option String) : Except PyErr HookOutput :=
  match inp with
  | none => .ok (approveWith parseFailReason)
  | some v => do
    let tn ← pyGet v "tool_name" (.str "")
    if isStrEq tn "Bash" then do
      let ti ← pyGet v "tool_input" (.obj [])
      let cv ← pyGet ti "command" (.str "")
      match cv with
      | .str c => .ok (gitMain c probe)
      | _ => .error .typeError
    else .ok approveOut

/-- The session record persisted at `/tmp/claude_modified_python_files.json`:
the touched-file set and the timestamp written with it. Time is modelled in
whole seconds. -/
structure SessionRecord where
  files : Finset String
  timestamp : Int
deriving DecidableEq

/-- The function `load_modified_files` of `code_quality_reminder_hook.py`: a
present record is returned while `(datetime.now() - ts).seconds < 3600`.
`timedelta.seconds` is the seconds field of the normalised timedelta, that
is the elapsed seconds modulo 86400 (floor convention, as Python's), not the
total elapsed seconds. A missing or unreadable record yields the empty set. -/
def load_modified_files (store : Option SessionRecord) (now : Int) : Finset String :=
  match store with
  | some r => if (now - r.timestamp) % 86400 < 3600 then r.files else ∅
  | none => ∅

/-- The function `save_modified_files`: the file set is written together
with a fresh `datetime.now()` timestamp. -/
def save_modified_files (files : Finset String) (now : Int) : Option SessionRecord :=
  some ⟨files, now⟩

/-- The advisory text of the quality reminder, keyed by the count of
modified files; the source interpolates this count into the header and then
lists up to five basenames (in Python set order, which the model does not
fix) and a constant checklist of lint, type-check, test and line-limit
commands. -/
def reminderText (n : Nat) : String :=
  "📋 QUALITY CHECK REMINDER - " ++ toString n ++ " Python files modified! Per CLAUDE.md, run ruff, mypy and pytest and check the line limits before finishing."

/-- The body of `main` of `code_quality_reminder_hook.py` past the input
stage: non-tracking tools and non-Python paths are approved without touching
the store; otherwise the store is loaded, the path merged in and the merged
set saved with a fresh timestamp, and the reminder is emitted once the
merged set has at least 3 files. Returns the decision and the new store. -/
def qualityMain (toolName filePath : String) (store : Option SessionRecord) (now : Int) :
    HookOutput × Option SessionRecord :=
  if !(["Write", "Edit", "MultiEdit"].contains toolName) then (approveOut, store)
  else if !(strEndsWith filePath ".py") then (approveOut, store)
  else
    let modified := load_modified_files store now
    let modified2 := insert filePath modified
    let store2 := save_modified_files modified2 now
    if modified2.card < 3 then (approveOut, store2)
    else (approveWith (reminderText modified2.card), store2)

/-- The whole of `main` of `code_quality_reminder_hook.py` from the input
stage, with the same error model as `gitHookRun`: a non-string `file_path`
reaches `file_path.endswith(".py")` and raises `AttributeError`. -/
def qualityHookRun (inp : Option JValue) (store : Option SessionRecord) (now : Int) :
    Except PyErr (HookOutput × Option SessionRecord) :=
  match inp with
  | none => .ok (approveWith parseFailReason, store)
  | some v => do
    let tn ← pyGet v "tool_name" (.str "")
    match tn with
    | .str tns =>
      if ["Write", "Edit", "MultiEdit"].contains tns then do
        let ti ← pyGet v "tool_input" (.obj [])
        let fpv ← pyGet ti "file_path" (.str "")
        match fpv with
        | .str fp => .ok (qualityMain tns fp store now)
        | _ => .error .attributeError
      else .ok (approveOut, store)
    | _ => .ok (approveOut, store)

/-- Processing a sequence of Write events through the quality hook,
threading the session store. -/
def runQualitySeq (paths : List String) (store : Option SessionRecord) (now : Int) :
    Option SessionRecord :=
  paths.foldl (fun st p => (qualityMain "Write" p st now).2) store

/-- A node of the walked syntax tree as `python_file_limits_hook.py` reads
it: only function and class definitions matter, with their first and last
line numbers (CPython guarantees `end_lineno ≥ lineno ≥ 1`). The model takes
the walked node list of `ast.parse` as an oracle; `none` is a
`SyntaxError`. -/
inductive PyNode where
  | functionDef (name : String) (lineno endLineno : Nat)
  | classDef (name : String) (lineno endLineno : Nat)
  | other
deriving DecidableEq, Repr

/-- The violation message for an oversized function
(`f"Function '{node.name}' at line {node.lineno} is {func_lines} lines (max 50)"`). -/
def funcViolationMsg (name : String) (lineno lines : Nat) : String :=
  "Function '" ++ name ++ "' at line " ++ toString lineno ++ " is " ++
    toString lines ++ " lines (max 50)"

/-- The violation message for an oversized class. -/
def classViolationMsg (name : String) (lineno lines : Nat) : String :=
  "Class '" ++ name ++ "' at line " ++ toString lineno ++ " is " ++
    toString lines ++ " lines (max 100)"

/-- The function `analyze_python_code`: on a syntax error the violation list
is empty (the content is let through for the agent to fix); otherwise every
function spanning more than 50 lines and every class spanning more than 100
lines contributes its message, in walk order. The `file_path` argument is
unused, as in the source. -/
def analyze_python_code (filePath : String) (parsed : Option (List PyNode)) : List String :=
  match parsed with
  | none => []
  | some nodes =>
    nodes.foldr
      (fun node acc =>
        match node with
        | .functionDef name a b =>
          if 50 < b - a + 1 then funcViolationMsg name a (b - a + 1) :: acc else acc
        | .classDef name a b =>
          if 100 < b - a + 1 then classViolationMsg name a (b - a + 1) :: acc else acc
        | .other => acc)
      []

/-- The line terminators of Python `str.splitlines`: newline, carriage
return, vertical tab, form feed, the file, group and record separators, the
next-line character and the Unicode line and paragraph separators. -/
def isLineTerminator (c : Char) : Bool :=
  c = '\n' || c = '\r' || c = '\x0b' || c = '\x0c' || c = '\x1c' || c = '\x1d' ||
  c = '\x1e' || c = '\x85' || c = '\u2028' || c = '\u2029'

/-- Line counting as `len(content.splitlines())`: each terminator closes a
line, with `\r\n` counting as a single terminator, and trailing characters
after the last terminator form one more line. The flag records whether
characters of an unterminated final line have been seen. -/
def splitlinesCount : List Char → Bool → Nat
  | [], inLine => if inLine then 1 else 0
  | '\r' :: '\n' :: rest, _ => 1 + splitlinesCount rest false
  | c :: rest, _ =>
    if isLineTerminator c then 1 + splitlinesCount rest false
    else splitlinesCount rest true

/-- The function `count_lines_in_string` of `python_file_limits_hook.py`. -/
def count_lines_in_string (content : String) : Nat :=
  splitlinesCount content.toList false

/-- A 51-line string, a fixture for the Edit size gate. -/
def fiftyOneLineString : String :=
  String.intercalate "\n" (List.replicate 51 "x")

/-- Reason printed for a Write whose content exceeds 500 lines. -/
def fileTooLongReason (n : Nat) : String :=
  "File would be " ++ toString n ++ " lines (max 500). Per CLAUDE.md: Split into multiple modules."

/-- Reason printed for structure violations of a Write. -/
def structureReason (violations : List String) : String :=
  "Code structure violations per CLAUDE.md:\n" ++
    String.intercalate "\n" (violations.map (fun v => "  - " ++ v))

/-- Reason printed for an Edit whose new string exceeds 50 lines. -/
def editTooBigReason (n : Nat) : String :=
  "Edit adds " ++ toString n ++ " lines. Consider breaking into smaller edits or refactoring."

/-- Warning attached to approving a Read of an oversized file. -/
def readWarnReason (n : Nat) : String :=
  "WARNING: File has " ++ toString n ++ " lines (exceeds 500). Per CLAUDE.md: This file should be refactored."

/-- The body of `main` of `python_file_limits_hook.py` past the input stage.
A Write of a `.py` file is blocked when its content exceeds 500 lines, or
else when `analyze_python_code` reports violations. An Edit is blocked only
when the target file exists on disk (`fileExists`), reading it raised no
exception (`readOk`) and the `new_string` exceeds 50 lines; a MultiEdit is
never blocked. A Read of an existing oversized `.py` file is approved with
a warning, where `readLineCount` is the line count of the file on disk and
`none` models a read exception. Everything else is approved. -/
def pyLimitsMain (toolName filePath content newString : String)
    (parsed : Option (List PyNode)) (fileExists readOk : Bool)
    (readLineCount : Option Nat) : HookOutput :=
  if ["Write", "Edit", "MultiEdit"].contains toolName then
    if !(strEndsWith filePath ".py") then approveOut
    else if toolName = "Write" then
      let lineCount := count_lines_in_string content
      if 500 < lineCount then blockOut (fileTooLongReason lineCount)
      else
        let violations := analyze_python_code filePath parsed
        if violations.isEmpty then approveOut
        else blockOut (structureReason violations)
    else
      if fileExists && readOk && toolName = "Edit" then
        let newLines := count_lines_in_string newString
        if 50 < newLines then blockOut (editTooBigReason newLines) else approveOut
      else approveOut
  else if toolName = "Read" then
    if strEndsWith filePath ".py" && fileExists then
      match readLineCount with
      | some n => if 500 < n then approveWith (readWarnReason n) else approveOut
      | none => approveOut
    else approveOut
  else approveOut


/-- C1 counterexample: the input `42` is valid JSON, so the decode handler
does not fire, and `input_data.get("tool_name", "")` then raises an uncaught
`AttributeError` instead of emitting an approve decision. -/
theorem c1_nonobject_input_raises :
    gitHookRun (some (JValue.num 42)) none = .error .attributeError := rfl

/-- C1 (amended): unparsable standard input and object-shaped inputs with
missing fields are answered with an approve decision by both hooks; only
`json.JSONDecodeError` is caught, so a parsable non-object JSON input
escapes `main` as an `AttributeError` (see the counterexample). -/
theorem c1_amended_parse_and_missing_fields (probe : Option String)
    (store : Option SessionRecord) (now : Int) :
    gitHookRun none probe = .ok (approveWith parseFailReason)
    ∧ gitHookRun (some (JValue.obj [])) probe = .ok approveOut
    ∧ qualityHookRun none store now = .ok (approveWith parseFailReason, store)
    ∧ qualityHookRun (some (JValue.obj [])) store now = .ok (approveOut, store) :=
  ⟨rfl, rfl, rfl, rfl⟩

/-- C2: a record stamped at time 0 and loaded 24 hours and 10 minutes later
(87000 seconds, far past the one-hour window) is still returned, because
`timedelta.seconds` is the elapsed time modulo 86400: `87000 % 86400 = 600 <
3600`. The claim (and the source comment `within 1 hour`) requires the empty
set at any time at or after `t + 3600`. -/
theorem c2_ttl_wraparound_bug :
    load_modified_files (some ⟨{"a.py"}, 0⟩) 87000 = {"a.py"}
    ∧ (0 : Int) + 3600 ≤ 87000
    ∧ ({"a.py"} : Finset String) ≠ (∅ : Finset String) :=
  ⟨rfl, by norm_num, by decide⟩

/-- C3 counterexample: a record stamped at time 0 is still valid at time 100,
yet merging `b.py` into it persists timestamp 100, not the original 0 — the
save path always writes a fresh `datetime.now()`. -/
theorem c3_restamp_counterexample :
    (qualityMain "Write" "b.py" (some ⟨{"a.py"}, 0⟩) 100).2
        = some ⟨insert "b.py" {"a.py"}, 100⟩
    ∧ ((100 : Int) - 0) % 86400 < 3600
    ∧ (100 : Int) ≠ 0 :=
  ⟨rfl, by norm_num, by norm_num⟩

/-- C3 (amended): the merge-and-save path re-stamps the persisted timestamp
to the current time on every save, including merges into a still-valid
record, so the TTL window is anchored to last-touch time, not first-touch
time. -/
theorem c3_amended_restamp_every_save (s : Finset String) (t now : Int) (tn p : String)
    (htn : (["Write", "Edit", "MultiEdit"].contains tn) = true)
    (hp : strEndsWith p ".py" = true)
    (hvalid : (now - t) % 86400 < 3600) :
    (qualityMain tn p (some ⟨s, t⟩) now).2 = some ⟨insert p s, now⟩ := by
  simp only [qualityMain, htn, hp, load_modified_files, save_modified_files, if_pos hvalid,
    Bool.not_true, Bool.false_eq_true, if_false]
  split <;> rfl

/-- C3 amended witness: the merge of `b.py` at time 100 into a record
stamped at time 0 persists timestamp 100. -/
theorem c3_amended_witness :
    (qualityMain "Write" "b.py" (some ⟨{"a.py"}, 0⟩) 100).2
        = some ⟨insert "b.py" {"a.py"}, 100⟩ :=
  c3_amended_restamp_every_save {"a.py"} 0 100 "Write" "b.py" (by decide) (by decide)
    (by norm_num)

/-- C9: merging `n` distinct Python paths into an empty store at one time
yields a touched set of exactly the `n` paths; re-merging a path already
present leaves the stored set (and hence the advisory's file count)
unchanged, and that repeat event's decision carries the advisory exactly
when the distinct count has reached 3. -/
theorem c9_accumulation (paths : List String) (now : Int) (p : String)
    (hnd : paths.Nodup)
    (hpy : ∀ q ∈ paths, strEndsWith q ".py" = true)
    (hp : p ∈ paths) :
    runQualitySeq paths none now = some ⟨paths.toFinset, now⟩
    ∧ paths.toFinset.card = paths.length
    ∧ (qualityMain "Write" p (runQualitySeq paths none now) now).2
        = some ⟨paths.toFinset, now⟩
    ∧ (qualityMain "Write" p (runQualitySeq paths none now) now).1
        = (if paths.length < 3 then approveOut
           else approveWith (reminderText paths.length)) := by
  have hvalid : (now - now) % 86400 < 3600 := by simp
  have hstep : ∀ (q : String) (s : Finset String), strEndsWith q ".py" = true →
      (qualityMain "Write" q (some ⟨s, now⟩) now).2 = some ⟨insert q s, now⟩ := by
    intro q s hq
    simp only [qualityMain, hq, load_modified_files, save_modified_files, if_pos hvalid,
      List.contains_cons, beq_self_eq_true, Bool.true_or, Bool.not_true,
      Bool.false_eq_true, if_false]
    split <;> rfl
  have key : ∀ (l : List String) (s : Finset String),
      (∀ q ∈ l, strEndsWith q ".py" = true) →
      runQualitySeq l (some ⟨s, now⟩) now = some ⟨s ∪ l.toFinset, now⟩ := by
    intro l
    induction l with
    | nil => intro s _; simp [runQualitySeq]
    | cons q rest ih =>
      intro s hq
      have h1 : runQualitySeq (q :: rest) (some ⟨s, now⟩) now
          = runQualitySeq rest ((qualityMain "Write" q (some ⟨s, now⟩) now).2) now := rfl
      rw [h1, hstep q s (hq q (List.mem_cons_self q rest)),
        ih (insert q s) (fun r hr => hq r (List.mem_cons_of_mem q hr))]
      rw [List.toFinset_cons, Finset.insert_union, Finset.union_insert]
  have hrun : runQualitySeq paths none now = some ⟨paths.toFinset, now⟩ := by
    cases paths with
    | nil => cases hp
    | cons a rest =>
      have h1 : runQualitySeq (a :: rest) none now
          = runQualitySeq rest ((qualityMain "Write" a none now).2) now := rfl
      have h2 : (qualityMain "Write" a none now).2 = some ⟨insert a ∅, now⟩ := by
        simp only [qualityMain, hpy a (List.mem_cons_self a rest), load_modified_files,
          save_modified_files, List.contains_cons, beq_self_eq_true, Bool.true_or,
          Bool.not_true, Bool.false_eq_true, if_false]
        split <;> rfl
      rw [h1, h2, key rest (insert a ∅) (fun r hr => hpy r (List.mem_cons_of_mem a hr))]
      rw [List.toFinset_cons, Finset.insert_union, Finset.empty_union]
  have hcard : paths.toFinset.card = paths.length := List.toFinset_card_of_nodup hnd
  have hins : insert p paths.toFinset = paths.toFinset :=
    Finset.insert_eq_self.mpr (List.mem_toFinset.mpr hp)
  refine ⟨hrun, hcard, ?_, ?_⟩
  · rw [hrun, hstep p paths.toFinset (hpy p hp), hins]
  · rw [hrun]
    simp only [qualityMain, hpy p hp, load_modified_files, save_modified_files,
      if_pos hvalid, List.contains_cons, beq_self_eq_true, Bool.true_or, Bool.not_true,
      Bool.false_eq_true, if_false, hins, hcard]
    split <;> rfl

/-- C9 witness: three distinct Python files accumulate to a set of size 3,
a repeat write of `b.py` leaves the stored set unchanged, and that repeat
event carries the advisory with file count 3. -/
theorem c9_witness :
    runQualitySeq ["a.py", "b.py", "c.py"] none 0
        = some ⟨["a.py", "b.py", "c.py"].toFinset, 0⟩
    ∧ (["a.py", "b.py", "c.py"] : List String).toFinset.card = 3
    ∧ (qualityMain "Write" "b.py" (runQualitySeq ["a.py", "b.py", "c.py"] none 0) 0).2
        = some ⟨["a.py", "b.py", "c.py"].toFinset, 0⟩
    ∧ (qualityMain "Write" "b.py" (runQualitySeq ["a.py", "b.py", "c.py"] none 0) 0).1
        = approveWith (reminderText 3) := by
  have h := c9_accumulation ["a.py", "b.py", "c.py"] 0 "b.py" (by decide) (by decide)
    (by decide)
  exact ⟨h.1, h.2.1, h.2.2.1, h.2.2.2⟩

/-- C4: for both the search hook and the git hook, every event produces
either a block decision with exit code 1 or an approve decision with exit
code 0, and the decision is block exactly when the event is a Bash command
on which some rule check fires. -/
theorem c4_block_precedence (toolName cmd : String) (probe : Option String) :
    ((searchHookTyped toolName cmd).decision = "block"
        ∧ (searchHookTyped toolName cmd).exitCode = 1
      ∨ (searchHookTyped toolName cmd).decision = "approve"
        ∧ (searchHookTyped toolName cmd).exitCode = 0)
    ∧ ((searchHookTyped toolName cmd).decision = "block"
        ↔ toolName = "Bash" ∧ searchAnyCheckHit cmd.toList = true)
    ∧ ((gitHookTyped toolName cmd probe).decision = "block"
        ∧ (gitHookTyped toolName cmd probe).exitCode = 1
      ∨ (gitHookTyped toolName cmd probe).decision = "approve"
        ∧ (gitHookTyped toolName cmd probe).exitCode = 0)
    ∧ ((gitHookTyped toolName cmd probe).decision = "block"
        ↔ toolName = "Bash" ∧ gitAnyCheckHit cmd probe = true) := by
  by_cases ht : toolName = "Bash"
  · subst ht
    simp only [searchHookTyped, gitHookTyped, searchMain, gitMain, searchAnyCheckHit,
      gitAnyCheckHit, if_true, eq_self_iff_true, true_and]
    refine ⟨?_, ?_, ?_, ?_⟩ <;>
      · split_ifs <;> simp_all [blockOut, approveOut]
  · simp [searchHookTyped, gitHookTyped, ht, approveOut]

/-- C5 counterexample: the commit message `update the readme file` violates
the `type(scope): subject` convention, yet the hook approves the commit: the
format check only blocks non-conforming messages shorter than 10
characters. -/
theorem c5_counterexample :
    extractMsg "git commit -m \"update the readme file\""
        = some "update the readme file".toList
    ∧ validFormat "update the readme file".toList = false
    ∧ gitMain "git commit -m \"update the readme file\"" (some "dev") = approveOut :=
  ⟨by decide, by decide, by decide⟩

/-- C5 (amended): on a git commit command that passes the branch guard and
the deny list and whose `-m` message is extracted, the format rule blocks
exactly when the message both violates the convention and is shorter than
10 characters; a non-conforming message of 10 or more characters is allowed
as descriptive. The message `fix bug` (7 characters) is blocked. -/
theorem c5_amended_format_gate (cmd : String) (probe : Option String) (m : List Char)
    (hc : searchGitCommit cmd.toList = true)
    (hb : branchGuard probe = false)
    (hph : prohibitedHit (lowerList cmd) = false)
    (hm : containsM cmd = true)
    (he : extractMsg cmd = some m) :
    gitMain cmd probe = blockOut formatBlockReason
      ↔ (validFormat m = false ∧ m.length < 10) := by
  have hne1 : pushBlockReason ≠ formatBlockReason := by decide
  have hne2 : mergeBlockReason ≠ formatBlockReason := by decide
  have hne3 : forceBlockReason ≠ formatBlockReason := by decide
  simp only [gitMain, hc, hb, hph, hm, he, msgFormatViolation, Bool.and_false,
    Bool.false_eq_true, if_false, Bool.and_true, Bool.true_and]
  by_cases hv : (!validFormat m && decide (m.length < 10)) = true
  · rw [if_pos hv]
    simp only [Bool.and_eq_true, Bool.not_eq_true', decide_eq_true_eq] at hv
    simp [hv]
  · rw [if_neg hv]
    simp only [Bool.and_eq_true, Bool.not_eq_true', decide_eq_true_eq, not_and] at hv
    constructor
    · intro hout
      exfalso
      revert hout
      split_ifs <;> simp [blockOut, approveOut, hne1, hne2, hne3]
    · intro ⟨h1, h2⟩
      exact absurd h2 (hv h1)

/-- C5 witness: the message `fix bug` has no type prefix and 7 characters,
and the hook blocks it with the format reason. -/
theorem c5_witness :
    gitMain "git commit -m \"fix bug\"" (some "dev") = blockOut formatBlockReason :=
  (c5_amended_format_gate "git commit -m \"fix bug\"" (some "dev") "fix bug".toList
    (by decide) (by decide) (by decide) (by decide) (by decide)).mpr (by decide)

/-- C6: a git commit command on which the deny list fires (matching is over
the lowercased command, so in any letter case) is blocked whatever the
probe result, and when the branch guard does not fire the block carries the
AI-reference reason — the deny-list check precedes the format check, so a
conforming message cannot rescue the commit. -/
theorem c6_denylist_blocks (cmd : String) (probe : Option String)
    (hc : searchGitCommit cmd.toList = true)
    (hph : prohibitedHit (lowerList cmd) = true) :
    (gitMain cmd probe).decision = "block"
    ∧ (branchGuard probe = false → gitMain cmd probe = blockOut aiRefBlockReason) := by
  have hc' : searchGitCommit cmd.data = true := hc
  constructor
  · by_cases hb : branchGuard probe = true
    · simp [gitMain, hc', hb, blockOut]
    · rw [Bool.not_eq_true] at hb
      simp [gitMain, hc', hb, hph, blockOut]
  · intro hb
    simp [gitMain, hc', hb, hph, blockOut]

/-- C6 witness: a commit whose message mixes the letter case of the phrase
`Generated by Claude` is blocked with the AI-reference reason even though
its message satisfies the format convention. -/
theorem c6_witness :
    gitMain "git commit -m \"feat(x): ok\" # GeNeRaTeD bY Claude" (some "dev")
        = blockOut aiRefBlockReason :=
  (c6_denylist_blocks "git commit -m \"feat(x): ok\" # GeNeRaTeD bY Claude" (some "dev")
    (by decide) (by decide)).2 (by decide)

/-- C7: when the branch probe reports a branch of the protected set `main`,
`master`, `production`, every command matching the commit or merge pattern
is blocked with exit code 1; when the probe reports a branch outside that
set, the hook behaves exactly as when the probe fails (`none`, the `except`
path) — absence of branch data never adds a block. -/
theorem c7_protected_branch_guard (cmd b : String) :
    ((searchGitCommit cmd.toList = true ∨ searchGitMerge cmd.toList = true) →
      b ∈ ["main", "master", "production"] →
      (gitMain cmd (some b)).decision = "block" ∧ (gitMain cmd (some b)).exitCode = 1)
    ∧ (b ∉ ["main", "master", "production"] → gitMain cmd (some b) = gitMain cmd none) := by
  constructor
  · intro hcm hbmem
    have hg : branchGuard (some b) = true := List.elem_eq_true_of_mem hbmem
    rcases hcm with hc | hm
    · have hc' : searchGitCommit cmd.data = true := hc
      simp [gitMain, hc', hg, blockOut]
    · have hm' : searchGitMerge cmd.data = true := hm
      simp only [gitMain, hm', hg, Bool.and_true]
      split_ifs <;> simp_all [blockOut]
  · intro hnb
    have hg : branchGuard (some b) = false := by
      simp only [branchGuard]
      simp [hnb]
    have hg0 : branchGuard none = false := rfl
    simp only [gitMain, hg, hg0]

/-- C7 witness: a commit while the probe reports `main` is blocked, and a
merge command behaves the same under a probe failure as on the feature
branch `feature/x`. -/
theorem c7_witness :
    (gitMain "git commit -m \"feat: add x\"" (some "main")).decision = "block"
    ∧ gitMain "git merge topic" (some "feature/x") = gitMain "git merge topic" none :=
  ⟨((c7_protected_branch_guard "git commit -m \"feat: add x\"" "main").1
      (Or.inl (by decide)) (by decide)).1,
    (c7_protected_branch_guard "git merge topic" "feature/x").2 (by decide)⟩

/-- C10: the deny list is matched against the lowercased text of the whole
Bash command, so a git commit command containing a prohibited substring
anywhere — here witnessed with an extracted `-m` message that is itself
clean and format-conforming — is blocked. -/
theorem c10_denylist_scans_whole_command (cmd : String) (probe : Option String)
    (m : List Char)
    (hc : searchGitCommit cmd.toList = true)
    (hph : prohibitedHit (lowerList cmd) = true)
    (he : extractMsg cmd = some m)
    (hmsgClean : prohibitedHit (m.map lowerChar) = false)
    (hmsgFormat : validFormat m = true) :
    (gitMain cmd probe).decision = "block" := by
  have hc' : searchGitCommit cmd.data = true := hc
  by_cases hb : branchGuard probe = true
  · simp [gitMain, hc', hb, blockOut]
  · rw [Bool.not_eq_true] at hb
    simp [gitMain, hc', hb, hph, blockOut]

/-- C10 witness: the phrase `anthropic` sits in a file path of the command,
the `-m` message `feat(core): update docs` is clean and conforming, and the
commit is still blocked. -/
theorem c10_witness :
    (gitMain "git commit -m \"feat(core): update docs\" anthropic/notes.txt"
        (some "dev")).decision = "block" :=
  c10_denylist_scans_whole_command
    "git commit -m \"feat(core): update docs\" anthropic/notes.txt" (some "dev")
    "feat(core): update docs".toList (by decide) (by decide) (by decide) (by decide)
    (by decide)

/-- C8 counterexample: an Edit event on a Python file whose proposed content
parses to a 60-line function is approved when the target file does not
exist on disk — the structural analysis runs only for Write events, so the
claim fails for edit-file events. -/
theorem c8_edit_not_analyzed_counterexample :
    pyLimitsMain "Edit" "m.py" "" "" (some [PyNode.functionDef "f" 1 60]) false true none
        = approveOut
    ∧ analyze_python_code "m.py" (some [PyNode.functionDef "f" 1 60])
        = [funcViolationMsg "f" 1 60] :=
  ⟨by decide, by decide⟩

/-- C8 (amended): for Write events on Python files the guard blocks exactly
when the content exceeds 500 lines or the parsed tree has an oversized
function or class; with a syntax error the Write is treated by the line
limit alone (parse failures are passed through); every oversized function
and every oversized class is named with its line count in the violation
list; an Edit event is blocked exactly when the target file exists, is
readable and the new string exceeds 50 lines (no structural analysis); a
MultiEdit event is never blocked. -/
theorem c8_amended_limits (fp content newString : String) (parsed : Option (List PyNode))
    (fileExists readOk : Bool) (rlc : Option Nat)
    (hfp : strEndsWith fp ".py" = true) :
    ((pyLimitsMain "Write" fp content newString parsed fileExists readOk rlc).decision
        = "block"
      ↔ (500 < count_lines_in_string content ∨ analyze_python_code fp parsed ≠ []))
    ∧ (parsed = none →
        pyLimitsMain "Write" fp content newString parsed fileExists readOk rlc
          = (if 500 < count_lines_in_string content
             then blockOut (fileTooLongReason (count_lines_in_string content))
             else approveOut))
    ∧ (∀ nodes name a b, parsed = some nodes → PyNode.functionDef name a b ∈ nodes →
        50 < b - a + 1 →
        funcViolationMsg name a (b - a + 1) ∈ analyze_python_code fp parsed)
    ∧ (∀ nodes name a b, parsed = some nodes → PyNode.classDef name a b ∈ nodes →
        100 < b - a + 1 →
        classViolationMsg name a (b - a + 1) ∈ analyze_python_code fp parsed)
    ∧ ((pyLimitsMain "Edit" fp content newString parsed fileExists readOk rlc).decision
        = "block"
      ↔ (fileExists = true ∧ readOk = true ∧ 50 < count_lines_in_string newString))
    ∧ pyLimitsMain "MultiEdit" fp content newString parsed fileExists readOk rlc
        = approveOut := by
  refine ⟨?_, ?_, ?_, ?_, ?_, ?_⟩
  · simp only [pyLimitsMain, hfp, Bool.not_true, Bool.false_eq_true, if_false,
      List.contains_cons, beq_self_eq_true, Bool.true_or, if_true, if_pos rfl]
    split_ifs with h1 h2 <;>
      simp_all [blockOut, approveOut, List.isEmpty_iff]
  · intro hnone
    subst hnone
    simp only [pyLimitsMain, hfp, Bool.not_true, Bool.false_eq_true, if_false,
      List.contains_cons, beq_self_eq_true, Bool.true_or, if_true, if_pos rfl,
      analyze_python_code, List.isEmpty_nil, if_true]
  · intro nodes name a b hpar hmem hgt
    subst hpar
    simp only [analyze_python_code]
    induction nodes with
    | nil => cases hmem
    | cons nd rest ih =>
      rcases List.mem_cons.mp hmem with hhd | htl
      · subst hhd
        simp only [List.foldr_cons, if_pos hgt]
        exact List.mem_cons_self _ _
      · have hmemtl := ih htl
        simp only [List.foldr_cons]
        cases nd with
        | functionDef n2 a2 b2 =>
          by_cases h2 : 50 < b2 - a2 + 1
          · simp only [if_pos h2]
            exact List.mem_cons_of_mem _ hmemtl
          · simp only [if_neg h2]
            exact hmemtl
        | classDef n2 a2 b2 =>
          by_cases h2 : 100 < b2 - a2 + 1
          · simp only [if_pos h2]
            exact List.mem_cons_of_mem _ hmemtl
          · simp only [if_neg h2]
            exact hmemtl
        | other => exact hmemtl
  · intro nodes name a b hpar hmem hgt
    subst hpar
    simp only [analyze_python_code]
    induction nodes with
    | nil => cases hmem
    | cons nd rest ih =>
      rcases List.mem_cons.mp hmem with hhd | htl
      · subst hhd
        simp only [List.foldr_cons, if_pos hgt]
        exact List.mem_cons_self _ _
      · have hmemtl := ih htl
        simp only [List.foldr_cons]
        cases nd with
        | functionDef n2 a2 b2 =>
          by_cases h2 : 50 < b2 - a2 + 1
          · simp only [if_pos h2]
            exact List.mem_cons_of_mem _ hmemtl
          · simp only [if_neg h2]
            exact hmemtl
        | classDef n2 a2 b2 =>
          by_cases h2 : 100 < b2 - a2 + 1
          · simp only [if_pos h2]
            exact List.mem_cons_of_mem _ hmemtl
          · simp only [if_neg h2]
            exact hmemtl
        | other => exact hmemtl
  · simp only [pyLimitsMain, hfp, Bool.not_true, Bool.false_eq_true, if_false,
      List.contains_cons, beq_self_eq_true, Bool.true_or, Bool.or_true, if_true]
    rw [if_neg (by decide : ¬ (("Edit" : String) = "Write"))]
    simp only [decide_True, Bool.and_true]
    cases fileExists <;> cases readOk <;>
      split_ifs <;> simp_all [blockOut, approveOut]
  · have hMe : (decide (("MultiEdit" : String) = "Edit")) = false := by decide
    simp only [pyLimitsMain, hfp, Bool.not_true, Bool.false_eq_true, if_false,
      List.contains_cons, beq_self_eq_true, Bool.true_or, Bool.or_true, if_true]
    rw [if_neg (by decide : ¬ (("MultiEdit" : String) = "Write"))]
    simp only [hMe, Bool.and_false, Bool.false_eq_true, if_false]

/-- C8 amended witness: a Write whose parsed tree holds a 60-line function
is blocked and the violation list names the function with its line count; a
120-line class is likewise named; an Edit of an existing readable file with
a 51-line new string is blocked while the same Edit on a missing file is
approved; a MultiEdit is approved. -/
theorem c8_amended_witness :
    (pyLimitsMain "Write" "m.py" "x = 1" "" (some [PyNode.functionDef "f" 1 60])
        true true none).decision = "block"
    ∧ funcViolationMsg "f" 1 60
        ∈ analyze_python_code "m.py" (some [PyNode.functionDef "f" 1 60])
    ∧ classViolationMsg "C" 1 120
        ∈ analyze_python_code "m.py" (some [PyNode.classDef "C" 1 120])
    ∧ (pyLimitsMain "Edit" "m.py" "" fiftyOneLineString (some []) true true
        none).decision = "block"
    ∧ (pyLimitsMain "Edit" "m.py" "" fiftyOneLineString (some []) false true
        none).decision = "approve"
    ∧ pyLimitsMain "MultiEdit" "m.py" "" fiftyOneLineString
        (some [PyNode.functionDef "f" 1 60]) true true none = approveOut := by
  have h := c8_amended_limits "m.py" "x = 1" "" (some [PyNode.functionDef "f" 1 60])
    true true none (by decide)
  have hcl := c8_amended_limits "m.py" "x = 1" "" (some [PyNode.classDef "C" 1 120])
    true true none (by decide)
  have hedit := c8_amended_limits "m.py" "" fiftyOneLineString (some []) true true
    none (by decide)
  have hmulti := c8_amended_limits "m.py" "" fiftyOneLineString
    (some [PyNode.functionDef "f" 1 60]) true true none (by decide)
  exact ⟨h.1.mpr (Or.inr (by decide)),
    h.2.2.1 [PyNode.functionDef "f" 1 60] "f" 1 60 rfl (by decide) (by decide),
    hcl.2.2.2.1 [PyNode.classDef "C" 1 120] "C" 1 120 rfl (by decide) (by decide),
    hedit.2.2.2.2.1.mpr ⟨rfl, rfl, by decide⟩, by decide, hmulti.2.2.2.2.2⟩
